import Mathlib

/-!
Verification of the Sparkle batch raster compositor against its
natural-language specification.

This file is a shallow embedding of the Sparkle virtual machine core
(skvm.c), the sample operator module (sksample.c) and the script
interpreter stack (sparkle.c).  C `double` values are modeled as exact
rationals (`ℚ`); all of the concrete scenarios checked below involve
only arithmetic that is exact in IEEE double precision, so the rational
model agrees with the C computation on them.  C `abort()` paths are
modeled by `Option`-valued functions returning `none`.  Fallible
functions return their C status flag as a `Bool` (or an `Except` for
staged computations).  File contents are modeled as byte oracles
`ℕ → Option ℕ` (a `getc` after an `fseeko`), and the image-codec
collaborator (libsophistry, which is outside this repository) is
modeled from its contract pinned in the specification.
-/

/-! ## Matrix registers (skvm.c / unnamed part_000)

The SKMAT structure of skvm.c: a 2x3 affine matrix with an optional
cached 2x3 inverse, the cache governed by the `cached` flag. -/

structure SKMAT where
  a : ℚ
  b : ℚ
  c : ℚ
  d : ℚ
  e : ℚ
  f : ℚ
  iva : ℚ
  ivb : ℚ
  ivc : ℚ
  ivd : ℚ
  ive : ℚ
  ivf : ℚ
  cached : Bool
deriving DecidableEq

/-- The matrix_mul helper of skvm.c (part_000 lines 442-463): the
destination register keeps its old inverse fields, the forward fields
become the product, and the cache flag is cleared. -/
def matrix_mul (pm pa pb : SKMAT) : SKMAT :=
  { pm with
    a := pa.a * pb.a + pa.b * pb.d
    b := pa.a * pb.b + pa.b * pb.e
    c := pa.a * pb.c + pa.b * pb.f + pa.c
    d := pa.d * pb.a + pa.e * pb.d
    e := pa.d * pb.b + pa.e * pb.e
    f := pa.d * pb.c + pa.e * pb.f + pa.f
    cached := false }

/-- The skvm_matrix_reset result (part_000 lines 1792-1820): identity
forward matrix with a cached identity inverse. -/
def skvm_matrix_reset : SKMAT :=
  { a := 1, b := 0, c := 0, d := 0, e := 1, f := 0
    iva := 1, ivb := 0, ivc := 0, ivd := 0, ive := 1, ivf := 0
    cached := true }

/-- A local transform matrix as built inside translate/scale/rotate:
memset to zero, forward part filled in, nothing cached. -/
def localMat (a b c d e f : ℚ) : SKMAT :=
  { a := a, b := b, c := c, d := d, e := e, f := f
    iva := 0, ivb := 0, ivc := 0, ivd := 0, ive := 0, ivf := 0
    cached := false }

/-- The skvm_matrix_translate operation (part_000 lines 1858-1902):
skips all work iff both offsets are zero, otherwise premultiplies the
translation matrix via matrix_mul. -/
def skvm_matrix_translate (m : SKMAT) (tx ty : ℚ) : SKMAT :=
  if tx ≠ 0 ∨ ty ≠ 0 then
    matrix_mul m (localMat 1 0 tx 0 1 ty) m
  else m

/-- The skvm_matrix_scale operation (part_000 lines 1907-1952): the C
code aborts on zero factors (modeled by `none`); it skips all work iff
both factors are one, otherwise premultiplies the scale matrix. -/
def skvm_matrix_scale (m : SKMAT) (sx sy : ℚ) : Option SKMAT :=
  if sx = 0 ∨ sy = 0 then none
  else if sx ≠ 1 ∨ sy ≠ 1 then
    some (matrix_mul m (localMat sx 0 0 0 sy 0) m)
  else some m

/-- Truncation toward zero, the rounding used by the C fmod. -/
def qtrunc (q : ℚ) : ℤ := if 0 ≤ q then ⌊q⌋ else ⌈q⌉

/-- The C `fmod(x, y)` remainder (toward zero) on the rational model. -/
def qfmod (x y : ℚ) : ℚ := x - y * (qtrunc (x / y) : ℚ)

/-- The skvm_matrix_rotate operation (part_000 lines 1957-2011).  The
angle is reduced by fmod toward zero modulo 360; a zero reduced angle
skips all work, otherwise the rotation matrix is premultiplied.  The
cosine and sine of the converted radian angle are transcendental, so
they are passed in as the oracle values `cosv` and `sinv`. -/
def skvm_matrix_rotate (m : SKMAT) (deg : ℚ) (cosv sinv : ℚ) : SKMAT :=
  if qfmod deg 360 ≠ 0 then
    matrix_mul m (localMat cosv (-sinv) 0 sinv cosv 0) m
  else m

/-- The source2target projection (part_000 lines 209-226): forward
mapping of a point through the 2x3 matrix. -/
def source2target (pt : SKMAT) (p : ℚ × ℚ) : ℚ × ℚ :=
  (pt.a * p.1 + pt.b * p.2 + pt.c, pt.d * p.1 + pt.e * p.2 + pt.f)

/-- The target2source projection (part_000 lines 238-272): if the
inverse is not cached it is computed from the determinant and cached,
then the point is mapped through the inverse.  Returns the (possibly
updated) matrix together with the mapped point. -/
def target2source (pt : SKMAT) (p : ℚ × ℚ) : SKMAT × (ℚ × ℚ) :=
  let pt :=
    if pt.cached then pt else
      let denom := pt.a * pt.e - pt.b * pt.d
      { pt with
        iva := pt.e / denom
        ivb := -(pt.b / denom)
        ivc := (pt.b * pt.f - pt.c * pt.e) / denom
        ivd := -(pt.d / denom)
        ive := pt.a / denom
        ivf := (pt.c * pt.d - pt.a * pt.f) / denom
        cached := true }
  (pt, (pt.iva * p.1 + pt.ivb * p.2 + pt.ivc,
        pt.ivd * p.1 + pt.ive * p.2 + pt.ivf))

/-- Determinant of the forward 2x2 part, as computed in target2source. -/
def detM (m : SKMAT) : ℚ := m.a * m.e - m.b * m.d

/-- The cached 2x3 inverse equals the inverse of the forward matrix:
the 3x3 product (with implied bottom rows 0 0 1) is the identity. -/
def invConsistent (m : SKMAT) : Prop :=
  m.a * m.iva + m.b * m.ivd = 1 ∧
  m.a * m.ivb + m.b * m.ive = 0 ∧
  m.a * m.ivc + m.b * m.ivf + m.c = 0 ∧
  m.d * m.iva + m.e * m.ivd = 0 ∧
  m.d * m.ivb + m.e * m.ive = 1 ∧
  m.d * m.ivc + m.e * m.ivf + m.f = 0

instance (m : SKMAT) : Decidable (invConsistent m) := by
  unfold invConsistent; infer_instance

/-- Matrix-register invariant: whenever the cache flag is set, the
cached inverse is consistent with the current forward matrix. -/
def matInv (m : SKMAT) : Prop := m.cached = true → invConsistent m

instance (m : SKMAT) : Decidable (matInv m) := by
  unfold matInv; infer_instance

/-! ## Interpreter stack cells (sparkle.c)

The CELL tagged union and the bounded interpreter stack.  STACK_HEIGHT
is 32.  The `cells` list is the 32-cell backing array; `count` is
m_stack_count. -/

inductive CELL where
  | vnull : CELL
  | vint (v : ℤ) : CELL
  | vfloat (v : ℚ) : CELL
  | vstr (s : List Char) : CELL
deriving DecidableEq

/-- The cell_type accessor: CELLTYPE_NULL 0, INTEGER 1, FLOAT 2,
STRING 3. -/
def cell_type : CELL → ℕ
  | .vnull => 0
  | .vint _ => 1
  | .vfloat _ => 2
  | .vstr _ => 3

/-- The cell_canfloat accessor (sparkle.c lines 626-643): integer and
float cells can act as floats. -/
def cell_canfloat (pc : CELL) : Bool :=
  cell_type pc = 1 ∨ cell_type pc = 2

/-- The cell_get_float accessor (sparkle.c lines 665-688): floats are
returned, integers are coerced, any other type aborts (`none`). -/
def cell_get_float : CELL → Option ℚ
  | .vfloat v => some v
  | .vint v => some (v : ℚ)
  | _ => none

/-- The cell_get_int accessor (sparkle.c lines 648-660): only integer
cells are accepted, anything else aborts (`none`). -/
def cell_get_int : CELL → Option ℤ
  | .vint v => some v
  | _ => none

structure STACK where
  cells : List CELL
  count : ℕ
deriving DecidableEq

/-- The stack_index accessor: element i counted down from the top of
the stack (the C aborts for i outside [0, count); operators always
check stack_count first, so the default is never observed). -/
def stack_index (sk : STACK) (i : ℕ) : CELL :=
  sk.cells.getD (sk.count - 1 - i) CELL.vnull

/-- The stack_pop function (sparkle.c lines 814-837): clears the top
`n` cells back to the NULL type and lowers the height. -/
def stack_pop (sk : STACK) (n : ℕ) : STACK :=
  ⟨(List.range n).foldl (fun cs i => cs.set (sk.count - 1 - i) CELL.vnull) sk.cells,
   sk.count - n⟩

/-- The stack_push_int function (sparkle.c lines 710-730).  At line
719 the overflow branch sets status to 1 even though its comment says
"Fail if stack is full"; the push then proceeds, writing
m_stack[m_stack_count], which for count = 32 lies outside the 32-cell
array (undefined behavior; the declared array is modeled unchanged by
`List.set` in that case) and the height still grows. -/
def stack_push_int (sk : STACK) (v : ℤ) : Bool × STACK :=
  let status := if 32 ≤ sk.count then true else true
  if status then
    (true, ⟨sk.cells.set sk.count (CELL.vint v), sk.count + 1⟩)
  else (false, sk)

/-- The stack_push_float function (sparkle.c lines 735-755), with the
same inverted overflow branch as stack_push_int. -/
def stack_push_float (sk : STACK) (v : ℚ) : Bool × STACK :=
  let status := if 32 ≤ sk.count then true else true
  if status then
    (true, ⟨sk.cells.set sk.count (CELL.vfloat v), sk.count + 1⟩)
  else (false, sk)

/-- The stack_push_string function (sparkle.c lines 760-780), with the
same inverted overflow branch as stack_push_int. -/
def stack_push_string (sk : STACK) (s : List Char) : Bool × STACK :=
  let status := if 32 ≤ sk.count then true else true
  if status then
    (true, ⟨sk.cells.set sk.count (CELL.vstr s), sk.count + 1⟩)
  else (false, sk)

/-! ## Sample operator module state (sksample.c)

The file-scope sticky configuration of sksample.c.  `mask_buf = -1`
selects procedural masking; a non-negative value is the raster-mask
buffer index.  `alg` is one of the SKVM_ALG constants (nearest 1,
bilinear 2, bicubic 3); the module default is bilinear. -/

structure SKSampleState where
  src : ℤ
  src_subarea : Bool
  target : ℤ
  matrix : ℤ
  mask_buf : ℤ
  x_boundary : ℚ
  y_boundary : ℚ
  right : Bool
  below : Bool
  alg : ℕ
deriving DecidableEq

/-- The initial sticky state of sksample.c (lines 46-100). -/
def sksampleInit : SKSampleState :=
  { src := -1, src_subarea := false, target := -1, matrix := -1
    mask_buf := -1, x_boundary := 0, y_boundary := 0
    right := false, below := false, alg := 2 }

/-- An operator invocation result: `none` models an abort inside the
operator, `some (status, state, stack)` the returned status flag with
the module state and interpreter stack after the call. -/
abbrev OpResult := Option (Bool × SKSampleState × STACK)

/-- The op_sample_mask_none operator (sksample.c lines 556-571):
unconditionally restores the default procedural mask and succeeds. -/
def op_sample_mask_none (s : SKSampleState) (sk : STACK) : OpResult :=
  some (true,
    { s with mask_buf := -1, x_boundary := 0, y_boundary := 0
             right := false, below := false }, sk)

/-- The op_sample_mask_x operator (sksample.c lines 576-638).  The
type check at line 591 is inverted: it fails when the top cell IS
float-compatible; when the cell is not float-compatible the check
passes and cell_get_float aborts. -/
def op_sample_mask_x (s : SKSampleState) (sk : STACK) : OpResult :=
  if sk.count < 1 then some (false, s, sk) else
  if cell_canfloat (stack_index sk 0) then some (false, s, sk) else
  match cell_get_float (stack_index sk 0) with
  | none => none
  | some v =>
    if 0 ≤ s.mask_buf then some (false, s, sk) else
    if ¬(0 ≤ v ∧ v ≤ 1) then some (false, s, sk) else
    some (true, { s with x_boundary := v }, stack_pop sk 1)

/-- The op_sample_mask_y operator (sksample.c lines 643-705), with the
same inverted type check as op_sample_mask_x. -/
def op_sample_mask_y (s : SKSampleState) (sk : STACK) : OpResult :=
  if sk.count < 1 then some (false, s, sk) else
  if cell_canfloat (stack_index sk 0) then some (false, s, sk) else
  match cell_get_float (stack_index sk 0) with
  | none => none
  | some v =>
    if 0 ≤ s.mask_buf then some (false, s, sk) else
    if ¬(0 ≤ v ∧ v ≤ 1) then some (false, s, sk) else
    some (true, { s with y_boundary := v }, stack_pop sk 1)

/-- The op_sample_mask_left operator (sksample.c lines 710-729):
fails if raster masking is in effect, else selects left mode. -/
def op_sample_mask_left (s : SKSampleState) (sk : STACK) : OpResult :=
  if 0 ≤ s.mask_buf then some (false, s, sk)
  else some (true, { s with right := false }, sk)

/-- The op_sample_mask_right operator (sksample.c lines 734-753). -/
def op_sample_mask_right (s : SKSampleState) (sk : STACK) : OpResult :=
  if 0 ≤ s.mask_buf then some (false, s, sk)
  else some (true, { s with right := true }, sk)

/-- The op_sample_mask_above operator (sksample.c lines 758-777). -/
def op_sample_mask_above (s : SKSampleState) (sk : STACK) : OpResult :=
  if 0 ≤ s.mask_buf then some (false, s, sk)
  else some (true, { s with below := false }, sk)

/-- The op_sample_mask_below operator (sksample.c lines 782-801). -/
def op_sample_mask_below (s : SKSampleState) (sk : STACK) : OpResult :=
  if 0 ≤ s.mask_buf then some (false, s, sk)
  else some (true, { s with below := true }, sk)

/-- The op_sample_mask_raster operator (sksample.c lines 806-854):
takes the buffer index from the stack, validates it against the buffer
register count, and selects raster masking. -/
def op_sample_mask_raster (bufc : ℤ) (s : SKSampleState) (sk : STACK) : OpResult :=
  if sk.count < 1 then some (false, s, sk) else
  if cell_type (stack_index sk 0) ≠ 1 then some (false, s, sk) else
  match cell_get_int (stack_index sk 0) with
  | none => none
  | some i =>
    if i < 0 ∨ bufc ≤ i then some (false, s, sk) else
    some (true, { s with mask_buf := i }, stack_pop sk 1)

/-- The op_sample_nearest operator (sksample.c lines 859-870):
unconditionally selects SKVM_ALG_NEAREST. -/
def op_sample_nearest (s : SKSampleState) (sk : STACK) : OpResult :=
  some (true, { s with alg := 1 }, sk)

/-- The op_sample_bilinear operator (sksample.c lines 875-886):
unconditionally selects SKVM_ALG_BILINEAR. -/
def op_sample_bilinear (s : SKSampleState) (sk : STACK) : OpResult :=
  some (true, { s with alg := 2 }, sk)

/-- The op_sample_bicubic operator (sksample.c lines 891-902):
unconditionally selects SKVM_ALG_BICUBIC.  Note that the registration
function below never registers this function. -/
def op_sample_bicubic (s : SKSampleState) (sk : STACK) : OpResult :=
  some (true, { s with alg := 3 }, sk)

/-- Tags naming the operator implementation functions of sksample.c,
standing for the C function pointers stored in the dispatch table. -/
inductive SkOpFun where
  | fn_sample
  | fn_sample_source
  | fn_sample_source_area
  | fn_sample_target
  | fn_sample_matrix
  | fn_sample_mask_none
  | fn_sample_mask_x
  | fn_sample_mask_y
  | fn_sample_mask_left
  | fn_sample_mask_right
  | fn_sample_mask_above
  | fn_sample_mask_below
  | fn_sample_mask_raster
  | fn_sample_nearest
  | fn_sample_bilinear
  | fn_sample_bicubic
deriving DecidableEq

/-- The sksample_register function (sksample.c lines 909-926), as the
list of (operator name, registered function) pairs in registration
order.  Line 925 registers the name "sample_bicubic" with the
op_sample_bilinear function. -/
def sksample_register : List (String × SkOpFun) :=
  [("sample", .fn_sample),
   ("sample_source", .fn_sample_source),
   ("sample_source_area", .fn_sample_source_area),
   ("sample_target", .fn_sample_target),
   ("sample_matrix", .fn_sample_matrix),
   ("sample_mask_none", .fn_sample_mask_none),
   ("sample_mask_x", .fn_sample_mask_x),
   ("sample_mask_y", .fn_sample_mask_y),
   ("sample_mask_left", .fn_sample_mask_left),
   ("sample_mask_right", .fn_sample_mask_right),
   ("sample_mask_above", .fn_sample_mask_above),
   ("sample_mask_below", .fn_sample_mask_below),
   ("sample_mask_raster", .fn_sample_mask_raster),
   ("sample_nearest", .fn_sample_nearest),
   ("sample_bilinear", .fn_sample_bilinear),
   ("sample_bicubic", .fn_sample_bilinear)]

/-- The algorithm selected by executing one of the three registered
algorithm-selector functions (the `m_alg` field after the call),
starting from any state `s`. -/
def algAfter (fn : SkOpFun) (s : SKSampleState) (sk : STACK) : Option ℕ :=
  match fn with
  | .fn_sample_nearest => (op_sample_nearest s sk).map (fun r => r.2.1.alg)
  | .fn_sample_bilinear => (op_sample_bilinear s sk).map (fun r => r.2.1.alg)
  | .fn_sample_bicubic => (op_sample_bicubic s sk).map (fun r => r.2.1.alg)
  | _ => some s.alg

/-! ## Buffer registers and pixel primitives (skvm.c / unnamed part_000)

A buffer register: width, height, channel count (1, 3 or 4) and the
optional pixel storage (`none` = unloaded).  Pixels are bytes, rows
top to bottom, unpadded; 4-channel pixels are A,R,G,B with
non-premultiplied alpha. -/

structure SKBUF where
  w : ℤ
  h : ℤ
  c : ℕ
  data : Option (List ℕ)
deriving DecidableEq

/-- Premultiplied floating-point ARGB, the SKARGB structure. -/
structure SKARGB where
  a : ℚ
  r : ℚ
  g : ℚ
  b : ℚ
deriving DecidableEq

/-- Byte read from pixel storage (C pointer arithmetic is always in
bounds on the paths exercised; out of range reads default to 0). -/
def getByte (d : List ℕ) (i : ℤ) : ℕ := d.getD i.toNat 0

/-- Clamp an integer channel value into the byte range, the C clamp
idiom `if (v < 0) v = 0; else if (v > 255) v = 255;`. -/
def clamp255 (v : ℤ) : ℤ := if v < 0 then 0 else if v > 255 then 255 else v

/-- Modelled from the spec: sph_argb_downRGB of libsophistry (not part
of this repository); section 4.A pins its contract as alpha-compositing
the color against opaque white with floor quantization of the result.
Channels are 0-255 integers. -/
def sph_argb_downRGB (a r g b : ℤ) : ℤ × ℤ × ℤ :=
  (⌊((a * r + (255 - a) * 255 : ℤ) : ℚ) / 255⌋,
   ⌊((a * g + (255 - a) * 255 : ℤ) : ℚ) / 255⌋,
   ⌊((a * b + (255 - a) * 255 : ℤ) : ℚ) / 255⌋)

/-- Modelled from the spec: sph_argb_downGray of libsophistry (not part
of this repository); section 4.A pins its contract as the standard luma
0.2126 R + 0.7152 G + 0.0722 B after the alpha-over-white flatten, with
floor quantization.  Returns the gray value (stored by the C callers
out of the g field). -/
def sph_argb_downGray (a r g b : ℤ) : ℤ :=
  let w := sph_argb_downRGB a r g b
  ⌊(2126 * w.1 + 7152 * w.2.1 + 722 * w.2.2 : ℚ) / 10000⌋

/-- The sample_nearest kernel (part_000 lines 292-364): floor both
coordinates, clamp into the buffer, load the pixel and promote it to
premultiplied ARGB.  Aborts (`none`) on an unloaded buffer or an
invalid channel count. -/
def sample_nearest (pb : SKBUF) (pp : ℚ × ℚ) : Option SKARGB :=
  match pb.data with
  | none => none
  | some d =>
    let x : ℤ := max 0 (min (⌊pp.1⌋) (pb.w - 1))
    let y : ℤ := max 0 (min (⌊pp.2⌋) (pb.h - 1))
    let base : ℤ := y * (pb.w * pb.c) + x * pb.c
    if pb.c = 1 then
      let v : ℚ := (getByte d base : ℚ) / 255
      some ⟨1, v, v, v⟩
    else if pb.c = 3 then
      some ⟨1, (getByte d base : ℚ) / 255,
               (getByte d (base + 1) : ℚ) / 255,
               (getByte d (base + 2) : ℚ) / 255⟩
    else if pb.c = 4 then
      let a : ℚ := (getByte d base : ℚ) / 255
      some ⟨a, (getByte d (base + 1) : ℚ) / 255 * a,
               (getByte d (base + 2) : ℚ) / 255 * a,
               (getByte d (base + 3) : ℚ) / 255 * a⟩
    else none

/-- The sample_bilinear kernel (part_000 lines 384-391): not
implemented; the C prints a message and aborts. -/
def sample_bilinear (pb : SKBUF) (pp : ℚ × ℚ) : Option SKARGB :=
  none

/-- The sample_bicubic kernel (part_000 lines 411-418): not
implemented; the C prints a message and aborts. -/
def sample_bicubic (pb : SKBUF) (pp : ℚ × ℚ) : Option SKARGB :=
  none

/-- The skvm_load_fill operation (part_000 lines 1404-1491): validate
the channel ranges, down-convert the fill color to the buffer's
channel count, and fill every pixel with it.  Aborts (`none`) on
out-of-range arguments or an invalid channel count. -/
def skvm_load_fill (buf : SKBUF) (a r g b : ℤ) : Option SKBUF :=
  if a < 0 ∨ 255 < a ∨ r < 0 ∨ 255 < r ∨ g < 0 ∨ 255 < g ∨ b < 0 ∨ 255 < b then
    none
  else
    let px : Option (List ℕ) :=
      if buf.c = 4 then some [a.toNat, r.toNat, g.toNat, b.toNat]
      else if buf.c = 3 then
        let w := sph_argb_downRGB a r g b
        some [w.1.toNat, w.2.1.toNat, w.2.2.toNat]
      else if buf.c = 1 then some [(sph_argb_downGray a r g b).toNat]
      else none
    match px with
    | none => none
    | some p => some { buf with data := some ((List.replicate (buf.w * buf.h).toNat p).flatten) }

/-! ## The sample engine (part_000 lines 2016-2759) -/

/-- The parameter block SKVM_SAMPLE_PARAM, with the flag word expanded
into one Boolean per SKVM_FLAG constant.  The buffer and matrix
registers addressed by the indices are passed to skvm_sample directly
instead of through the register arenas. -/
structure SampleParam where
  src_x : ℤ
  src_y : ℤ
  src_w : ℤ
  src_h : ℤ
  x_boundary : ℚ
  y_boundary : ℚ
  sample_alg : ℕ
  subarea : Bool
  procmask : Bool
  rastermask : Bool
  leftmode : Bool
  rightmode : Bool
  abovemode : Bool
  belowmode : Bool
deriving DecidableEq

/-- Store the list `bs` of freshly written channel bytes into the
target pixel storage starting at byte offset `base`. -/
def storeBytes (d : List ℕ) (base : ℤ) (bs : List ℕ) : List ℕ :=
  (List.range bs.length).foldl (fun acc i => acc.set (base.toNat + i) (bs.getD i 0)) d

/-- Load the current target pixel at byte offset `base` and promote it
to premultiplied ARGB (part_000 lines 2524-2554).  1- and 3-channel
targets get alpha 1; 4-channel targets premultiply.  Invalid channel
counts abort. -/
def loadTargetPixel (tc : ℕ) (d : List ℕ) (base : ℤ) : Option SKARGB :=
  if tc = 1 then
    let v : ℚ := (getByte d base : ℚ) / 255
    some ⟨1, v, v, v⟩
  else if tc = 3 then
    some ⟨1, (getByte d base : ℚ) / 255,
             (getByte d (base + 1) : ℚ) / 255,
             (getByte d (base + 2) : ℚ) / 255⟩
  else if tc = 4 then
    let a : ℚ := (getByte d base : ℚ) / 255
    some ⟨a, (getByte d (base + 1) : ℚ) / 255 * a,
             (getByte d (base + 2) : ℚ) / 255 * a,
             (getByte d (base + 3) : ℚ) / 255 * a⟩
  else none

/-- The write-back of the composited premultiplied color `fcol` into
the target pixel (part_000 lines 2571-2739), returning the channel
bytes to store.  For a 4-channel target the C first takes
`argb.a = (int) floor(fcol.a)` -- the floor of the 0-to-1 scale alpha,
not of `fcol.a * 255.0` -- clamps it, and stores transparent black
whenever that value is below 1; otherwise it unpremultiplies, clamps
in floating point, quantizes with floor(v*255) and clamps again. -/
def writebackPixel (tc : ℕ) (fcol : SKARGB) : Option (List ℕ) :=
  if tc = 1 then
    let r := clamp255 ⌊fcol.r * 255⌋
    let g := clamp255 ⌊fcol.g * 255⌋
    let b := clamp255 ⌊fcol.b * 255⌋
    some [(sph_argb_downGray 255 r g b).toNat]
  else if tc = 3 then
    some [(clamp255 ⌊fcol.r * 255⌋).toNat,
          (clamp255 ⌊fcol.g * 255⌋).toNat,
          (clamp255 ⌊fcol.b * 255⌋).toNat]
  else if tc = 4 then
    let a0 := clamp255 ⌊fcol.a⌋
    if a0 < 1 then some [0, 0, 0, 0]
    else
      let r1 := fcol.r / fcol.a
      let g1 := fcol.g / fcol.a
      let b1 := fcol.b / fcol.a
      let r1 := if ¬(r1 ≤ 1) then 1 else if ¬(0 ≤ r1) then 0 else r1
      let g1 := if ¬(g1 ≤ 1) then 1 else if ¬(0 ≤ g1) then 0 else g1
      let b1 := if ¬(b1 ≤ 1) then 1 else if ¬(0 ≤ b1) then 0 else b1
      some [(clamp255 ⌊fcol.a * 255⌋).toNat,
            (clamp255 ⌊r1 * 255⌋).toNat,
            (clamp255 ⌊g1 * 255⌋).toNat,
            (clamp255 ⌊b1 * 255⌋).toNat]
  else none

/-- One iteration of the rendering loop of skvm_sample (part_000 lines
2457-2758) at target pixel (x, y): raster-mask skip, inverse
projection, source-area test, kernel sampling, raster-mask scaling,
target load, OVER composition and write-back.  The state carries the
target pixel storage and the transformation matrix (whose inverse is
cached by the first target2source call). -/
def renderPixel (ps : SampleParam) (src : SKBUF) (mask : Option SKBUF)
    (tw : ℤ) (tc : ℕ) (st : List ℕ × SKMAT) (xy : ℤ × ℤ) :
    Option (List ℕ × SKMAT) :=
  let x := xy.1
  let y := xy.2
  let mv : ℕ := match mask with
    | some mb => getByte (mb.data.getD []) (mb.w * y + x)
    | none => 0
  if ps.rastermask ∧ mv = 0 then some st else
  let m1 := (target2source st.2 ((x : ℚ), (y : ℚ))).1
  let pnt := (target2source st.2 ((x : ℚ), (y : ℚ))).2
  if (ps.src_x : ℚ) ≤ pnt.1 ∧ pnt.1 ≤ ((ps.src_x + ps.src_w : ℤ) : ℚ) ∧
     (ps.src_y : ℚ) ≤ pnt.2 ∧ pnt.2 ≤ ((ps.src_y + ps.src_h : ℤ) : ℚ) then
    match (if ps.sample_alg = 1 then sample_nearest src pnt
           else if ps.sample_alg = 2 then sample_bilinear src pnt
           else sample_bicubic src pnt) with
    | none => none
    | some rcol0 =>
      let rcol : SKARGB :=
        if ps.rastermask ∧ mv ≠ 255 then
          let s : ℚ := (mv : ℚ) / 255
          ⟨rcol0.a * s, rcol0.r * s, rcol0.g * s, rcol0.b * s⟩
        else rcol0
      let base : ℤ := y * (tw * tc) + x * tc
      match loadTargetPixel tc st.1 base with
      | none => none
      | some tcol =>
        let fcol : SKARGB :=
          ⟨rcol.a + tcol.a * (1 - rcol.a),
           rcol.r + tcol.r * (1 - rcol.a),
           rcol.g + tcol.g * (1 - rcol.a),
           rcol.b + tcol.b * (1 - rcol.a)⟩
        match writebackPixel tc fcol with
        | none => none
        | some bs => some (storeBytes st.1 base bs, m1)
  else some (st.1, m1)

/-- The bounding-box fold of skvm_sample (part_000 lines 2252-2270):
starting from corner 0, widen max on a strictly larger coordinate,
else widen min on a strictly smaller one. -/
def cornerFold (c0 : ℚ × ℚ) (rest : List (ℚ × ℚ)) : ℚ × ℚ × ℚ × ℚ :=
  rest.foldl
    (fun acc p =>
      let acc1 :=
        if p.1 > acc.2.2.1 then (acc.1, acc.2.1, p.1, acc.2.2.2)
        else if p.1 < acc.1 then (p.1, acc.2.1, acc.2.2.1, acc.2.2.2)
        else acc
      if p.2 > acc1.2.2.2 then (acc1.1, acc1.2.1, acc1.2.2.1, p.2)
      else if p.2 < acc1.2.1 then (acc1.1, p.2, acc1.2.2.1, acc1.2.2.2)
      else acc1)
    (c0.1, c0.2, c0.1, c0.2)

/-- The INT32 bounds used by the engine's range guards. -/
def INT32_MAX : ℤ := 2147483647

/-- The skvm_sample operation (part_000 lines 2016-2759).  `src`,
`target` and `mask` are the buffer registers addressed by the C
parameter block, `mat` the matrix register; the result is the updated
target register and matrix register.  `none` models the abort paths
(inconsistent flags, invalid subarea, unloaded buffers, mask shape
violations, invalid algorithm, bound overflow, or reaching an
unimplemented kernel). -/
def skvm_sample (ps0 : SampleParam) (src target : SKBUF) (mask : Option SKBUF)
    (mat : SKMAT) : Option (SKBUF × SKMAT) :=
  if ps0.procmask ∧ ps0.rastermask then none else
  if ¬ps0.procmask ∧ ¬ps0.rastermask then none else
  if ps0.procmask ∧ ((ps0.leftmode ∧ ps0.rightmode) ∨ (¬ps0.leftmode ∧ ¬ps0.rightmode) ∨
      (ps0.abovemode ∧ ps0.belowmode) ∨ (¬ps0.abovemode ∧ ¬ps0.belowmode)) then none else
  if ps0.rastermask ∧ mask.isNone then none else
  if ps0.procmask ∧ ¬(0 ≤ ps0.x_boundary ∧ ps0.x_boundary ≤ 1 ∧
      0 ≤ ps0.y_boundary ∧ ps0.y_boundary ≤ 1) then none else
  if ps0.sample_alg ≠ 1 ∧ ps0.sample_alg ≠ 2 ∧ ps0.sample_alg ≠ 3 then none else
  -- subarea validation, or widening to the whole source buffer
  let okArea : Bool :=
    if ps0.subarea then
      ¬(ps0.src_x < 0 ∨ src.w ≤ ps0.src_x ∨ ps0.src_y < 0 ∨ src.h ≤ ps0.src_y ∨
        ps0.src_w < 1 ∨ ps0.src_h < 1 ∨
        src.w - ps0.src_w < ps0.src_x ∨ src.h - ps0.src_h < ps0.src_y)
    else true
  if ¬okArea then none else
  let ps : SampleParam :=
    if ps0.subarea then ps0
    else { ps0 with src_x := 0, src_y := 0, src_w := src.w, src_h := src.h }
  -- raster-mask shape checks and loadedness checks
  let maskOk : Bool :=
    match mask with
    | some mb => ¬(mb.w ≠ target.w ∨ mb.h ≠ target.h ∨ mb.c ≠ 1 ∨ mb.data.isNone)
    | none => true
  if ps.rastermask ∧ ¬maskOk then none else
  if src.data.isNone ∨ target.data.isNone then none else
  -- project the source-area corners and take the bounding box
  let c0 := source2target mat ((ps.src_x : ℚ), (ps.src_y : ℚ))
  let c1 := source2target mat (((ps.src_x + ps.src_w : ℤ) : ℚ), (ps.src_y : ℚ))
  let c2 := source2target mat ((ps.src_x : ℚ), ((ps.src_y + ps.src_h : ℤ) : ℚ))
  let c3 := source2target mat (((ps.src_x + ps.src_w : ℤ) : ℚ), ((ps.src_y + ps.src_h : ℤ) : ℚ))
  let bb := cornerFold c0 [c1, c2, c3]
  let fminx : ℤ := ⌊bb.1⌋
  let fminy : ℤ := ⌊bb.2.1⌋
  let fmaxx : ℤ := ⌈bb.2.2.1⌉
  let fmaxy : ℤ := ⌈bb.2.2.2⌉
  if fminx < -(INT32_MAX + 1) ∨ INT32_MAX < fmaxx ∨
     fminy < -(INT32_MAX + 1) ∨ INT32_MAX < fmaxy then none else
  if fminx > fmaxx ∨ fminy > fmaxy then none else
  if fmaxx < 0 ∨ fmaxy < 0 then some (target, mat) else
  if target.w ≤ fminx ∨ target.h ≤ fminy then some (target, mat) else
  let maxx := min fmaxx (target.w - 1)
  let maxy := min fmaxy (target.h - 1)
  let minx := max fminx 0
  let miny := max fminy 0
  -- procedural-mask intersection
  let boundx : ℤ :=
    if ps.x_boundary = 0 then 0
    else if ps.x_boundary = 1 then target.w - 1
    else ⌊ps.x_boundary * ((target.w - 1 : ℤ) : ℚ)⌋
  let boundy : ℤ :=
    if ps.y_boundary = 0 then 0
    else if ps.y_boundary = 1 then target.h - 1
    else ⌊ps.y_boundary * ((target.h - 1 : ℤ) : ℚ)⌋
  if ps.procmask ∧ ps.leftmode ∧ maxx < boundx then some (target, mat) else
  if ps.procmask ∧ ps.rightmode ∧ boundx < minx then some (target, mat) else
  let minx := if ps.procmask ∧ ps.leftmode then max minx boundx else minx
  let maxx := if ps.procmask ∧ ps.rightmode then min maxx boundx else maxx
  if ps.procmask ∧ ps.belowmode ∧ boundy < miny then some (target, mat) else
  if ps.procmask ∧ ps.abovemode ∧ maxy < boundy then some (target, mat) else
  let maxy := if ps.procmask ∧ ps.belowmode then min maxy boundy else maxy
  let miny := if ps.procmask ∧ ps.abovemode then max miny boundy else miny
  -- rendering loop, row-major over the clipped box
  let coords : List (ℤ × ℤ) :=
    (List.range (maxy - miny + 1).toNat).flatMap (fun dy =>
      (List.range (maxx - minx + 1).toNat).map (fun dx =>
        (minx + dx, miny + dy)))
  match coords.foldlM (renderPixel ps src (if ps.rastermask then mask else none)
      target.w target.c) (target.data.getD [], mat) with
  | none => none
  | some st => some ({ target with data := some st.1 }, st.2)

/-! ## Image loading (skvm.c lines 366-1073 / part_000 lines 692-1399)

The PNG and JPEG codecs are external collaborators; their observable
behavior is modeled as reader records.  A file on disk is modeled as a
byte oracle `ℕ → Option ℕ` (`getc` at a position, `none` = EOF). -/

/-- A PNG reader (libsophistry contract): dimensions plus a scanline
oracle returning the packed 32-bit ARGB pixels of row y, `none` for a
decode error at that row. -/
structure PngR where
  w : ℤ
  h : ℤ
  read : ℕ → Option (List ℕ)

/-- A JPEG reader (libsophistry-jpeg contract): construction status,
dimensions, channel count (1 or 3) and a scanline byte oracle. -/
structure JpegR where
  ok : Bool
  w : ℤ
  h : ℤ
  channels : ℕ
  read : ℕ → Option (List ℕ)

/-- Modelled from the spec: sph_argb_unpack of libsophistry (not part
of this repository); splits a packed 32-bit value into the A,R,G,B
bytes. -/
def sph_argb_unpack (v : ℕ) : ℤ × ℤ × ℤ × ℤ :=
  ((v / 2 ^ 24 % 256 : ℕ), (v / 2 ^ 16 % 256 : ℕ),
   (v / 2 ^ 8 % 256 : ℕ), (v % 256 : ℕ))

/-- Transfer of one unpacked PNG pixel into a buffer of channel count
`c` (part_000 lines 764-790): 4-channel stores A,R,G,B; 3-channel
down-converts with sph_argb_downRGB; 1-channel with
sph_argb_downGray.  Invalid channel counts abort. -/
def png_pixel (c : ℕ) (v : ℕ) : Option (List ℕ) :=
  let u := sph_argb_unpack v
  if c = 4 then some [u.1.toNat, u.2.1.toNat, u.2.2.1.toNat, u.2.2.2.toNat]
  else if c = 3 then
    let w := sph_argb_downRGB u.1 u.2.1 u.2.2.1 u.2.2.2
    some [w.1.toNat, w.2.1.toNat, w.2.2.toNat]
  else if c = 1 then some [(sph_argb_downGray u.1 u.2.1 u.2.2.1 u.2.2.2).toNat]
  else none

/-- Process the first `n` scanlines of a PNG read (part_000 lines
751-799): read each row, failing (`Except.error`) on a read error,
and concatenate the per-pixel transfers.  An abort inside the pixel
transfer propagates as `none`. -/
def png_rows (r : PngR) (c : ℕ) (w : ℤ) : ℕ → Option (Except Unit (List ℕ))
  | 0 => some (.ok [])
  | n + 1 =>
    match png_rows r c w n with
    | none => none
    | some (.error e) => some (.error e)
    | some (.ok d) =>
      match r.read n with
      | none => some (.error ())
      | some psl =>
        match (List.range w.toNat).foldlM
            (fun acc x => (png_pixel c (psl.getD x 0)).map (acc ++ ·)) [] with
        | none => none
        | some row => some (.ok (d ++ row))

/-- The skvm_load_png operation (part_000 lines 694-815): allocate if
needed, open the reader, check dimensions, transfer every scanline;
any failure releases the pixel storage so the register ends up
unloaded.  `reader = none` models a failed open. -/
def skvm_load_png (buf : SKBUF) (reader : Option PngR) : Option (Bool × SKBUF) :=
  match reader with
  | none => some (false, { buf with data := none })
  | some r =>
    if buf.w ≠ r.w ∨ buf.h ≠ r.h then some (false, { buf with data := none })
    else
      match png_rows r buf.c buf.w buf.h.toNat with
      | none => none
      | some (.error _) => some (false, { buf with data := none })
      | some (.ok d) => some (true, { buf with data := some d })

/-- Transfer of one JPEG pixel (the source bytes of the pixel) into a
buffer of channel count `c` (part_000 lines 1277-1356): the full
matrix of 4/3/1-channel destinations by 3/1-channel sources.  Invalid
combinations abort. -/
def jpeg_pixel (c srcc : ℕ) (bs : List ℕ) : Option (List ℕ) :=
  if c = 4 then
    if srcc = 3 then some [255, bs.getD 0 0, bs.getD 1 0, bs.getD 2 0]
    else if srcc = 1 then some [255, bs.getD 0 0, bs.getD 0 0, bs.getD 0 0]
    else none
  else if c = 3 then
    if srcc = 3 then some [bs.getD 0 0, bs.getD 1 0, bs.getD 2 0]
    else if srcc = 1 then some [bs.getD 0 0, bs.getD 0 0, bs.getD 0 0]
    else none
  else if c = 1 then
    if srcc = 3 then
      some [(sph_argb_downGray 255 (bs.getD 0 0) (bs.getD 1 0) (bs.getD 2 0)).toNat]
    else if srcc = 1 then some [bs.getD 0 0]
    else none
  else none

/-- Process the first `n` scanlines of a JPEG read (part_000 lines
1263-1365), mirroring png_rows. -/
def jpeg_rows (r : JpegR) (c : ℕ) (w : ℤ) : ℕ → Option (Except Unit (List ℕ))
  | 0 => some (.ok [])
  | n + 1 =>
    match jpeg_rows r c w n with
    | none => none
    | some (.error e) => some (.error e)
    | some (.ok d) =>
      match r.read n with
      | none => some (.error ())
      | some psl =>
        match (List.range w.toNat).foldlM
            (fun acc x =>
              (jpeg_pixel c r.channels ((psl.drop (x * r.channels)).take r.channels)).map
                (acc ++ ·)) [] with
        | none => none
        | some row => some (.ok (d ++ row))

/-- The decode stage shared by skvm_load_jpeg and skvm_load_mjpg
(reader construction status, dimension check, scanline transfer), with
any failure leaving the register unloaded. -/
def jpeg_decode (buf : SKBUF) (reader : Option JpegR) : Option (Bool × SKBUF) :=
  match reader with
  | none => some (false, { buf with data := none })
  | some r =>
    if ¬r.ok then some (false, { buf with data := none })
    else if buf.w ≠ r.w ∨ buf.h ≠ r.h then some (false, { buf with data := none })
    else
      match jpeg_rows r buf.c buf.w buf.h.toNat with
      | none => none
      | some (.error _) => some (false, { buf with data := none })
      | some (.ok d) => some (true, { buf with data := some d })

/-- The skvm_load_jpeg operation (part_000 lines 820-1031):
`reader = none` models a failed fopen; the rest is the decode stage.
Any failure leaves the register unloaded. -/
def skvm_load_jpeg (buf : SKBUF) (reader : Option JpegR) : Option (Bool × SKBUF) :=
  jpeg_decode buf reader

/-- The scan of the index file path for the last dot and the last
forward or back slash (part_000 lines 1083-1098), returning
(last_dot, last_sep) with -1 for absent. -/
def findLastDotSep (path : List Char) : ℤ × ℤ :=
  (List.range path.length).foldl
    (fun acc x =>
      let y := path.getD x ' '
      if y = '.' then ((x : ℤ), acc.2)
      else if y = '/' then (acc.1, (x : ℤ))
      else if y = '\\' then (acc.1, (x : ℤ))
      else acc)
    (-1, -1)

/-- Read eight bytes from position `pos` of a file as a big-endian
integer (part_000 lines 1136-1144 and 1188-1196); an EOF inside the
read fails. -/
def read_be8 (file : ℕ → Option ℕ) (pos : ℕ) : Option ℕ :=
  (List.range 8).foldlM
    (fun acc j => (file (pos + j)).map (fun y => acc * 256 + y)) 0

/-- The front half of skvm_load_mjpg (part_000 lines 1083-1229): path
validation, companion-path derivation, index-file interpretation and
frame-offset lookup.  Returns the companion JPEG path and the byte
offset to seek to, or the failure reason exactly as recorded in the
last-reason string.  The `indexFile` argument is the opened index
file; `none` models a failed fopen.  The C additionally fails with
"64-bit file mode required" when the offset exceeds INT32_MAX and
off_t is narrower than eight bytes; the model assumes the recommended
64-bit file mode build, where that check always passes. -/
def mjpg_locate (indexPath : List Char) (f : ℤ)
    (indexFile : Option (ℕ → Option ℕ)) : Except String (List Char × ℕ) :=
  let ld := (findLastDotSep indexPath).1
  let ls := (findLastDotSep indexPath).2
  if ld ≤ 0 then .error "Invalid index file path" else
  if 0 ≤ ls ∧ ld < ls then .error "Invalid index file path" else
  let jpegPath := indexPath.take ld.toNat
  match indexFile with
  | none => .error "Failed to open index file"
  | some file =>
    match read_be8 file 0 with
    | none => .error "Invalid index file"
    | some total_frames =>
      if f < 0 ∨ (total_frames : ℤ) ≤ f then .error "Invalid frame index" else
      if ¬(f < INT32_MAX) then .error "Frame index overflow" else
      let f1 := f + 1
      if ¬(f1 ≤ INT32_MAX / 8) then .error "Frame index overflow" else
      let f8 := f1 * 8
      match read_be8 file f8.toNat with
      | none => .error "Invalid index file"
      | some frame_offs => .ok (jpegPath, frame_offs)

/-- The skvm_load_mjpg operation (part_000 lines 1036-1399): locate
the frame through the index file, open the companion MJPEG stream at
the frame offset (the `jpegOpen` oracle maps companion path and seek
offset to a reader, `none` modeling a failed fopen), then run the
shared JPEG decode stage.  Any failure leaves the register
unloaded. -/
def skvm_load_mjpg (buf : SKBUF) (indexPath : List Char) (f : ℤ)
    (indexFile : Option (ℕ → Option ℕ))
    (jpegOpen : List Char → ℕ → Option JpegR) : Option (Bool × SKBUF) :=
  match mjpg_locate indexPath f indexFile with
  | .error _ => some (false, { buf with data := none })
  | .ok loc => jpeg_decode buf (jpegOpen loc.1 loc.2)

/-- The documented MJPEG index layout: the big-endian byte `j` of a
64-bit integer value. -/
def beByte (v : ℕ) (j : ℕ) : ℕ := v / 256 ^ (7 - j) % 256

/-- The documented MJPEG index file holding the frame count `kk`
followed by the `kk` frame offsets `offs 0 .. offs (kk-1)`, as a byte
oracle: integer `i` of the file occupies bytes 8 i .. 8 i + 7. -/
def mjpgIndexFile (kk : ℕ) (offs : ℕ → ℕ) : ℕ → Option ℕ :=
  fun pos =>
    let idx := pos / 8
    if idx = 0 then some (beByte kk (pos % 8))
    else if idx ≤ kk then some (beByte (offs (idx - 1)) (pos % 8))
    else none

/-! ## Binary64 rounding model of the C double arithmetic -/

/-- Round-to-nearest, ties-to-even, of a rational to an integer: the
rounding rule IEEE 754 prescribes for the C double type. -/
def rne (x : ℚ) : ℤ :=
  if x - ⌊x⌋ < 1 / 2 then ⌊x⌋
  else if 1 / 2 < x - ⌊x⌋ then ⌊x⌋ + 1
  else if Even ⌊x⌋ then ⌊x⌋ else ⌊x⌋ + 1

/-- Rounding a rational to the nearest IEEE 754 binary64 value
(round-to-nearest ties-to-even, 53-bit significand, exponents clamped
below at -1022 so subnormals round on the fixed grid of step 2^(-1074)).
Overflow to infinity is not modelled: every value arising in the claims
stays far below 2^1024. -/
def fl (x : ℚ) : ℚ :=
  if x = 0 then 0
  else
    (rne (x / 2 ^ (max (Int.log 2 |x|) (-1022) - 52)) : ℚ) *
      2 ^ (max (Int.log 2 |x|) (-1022) - 52)

/-- matrix_mul of part_000 lines 1858-1902 with each double
multiplication and addition rounded by fl, the binary64 model of the
C expressions (each product rounds once, each sum once; the cache is
invalidated exactly as in matrix_mul). -/
def matrix_mul_fp (pm pa pb : SKMAT) : SKMAT :=
  { pm with
    a := fl (fl (pa.a * pb.a) + fl (pa.b * pb.d))
    b := fl (fl (pa.a * pb.b) + fl (pa.b * pb.e))
    c := fl (fl (fl (pa.a * pb.c) + fl (pa.b * pb.f)) + pa.c)
    d := fl (fl (pa.d * pb.a) + fl (pa.e * pb.d))
    e := fl (fl (pa.d * pb.b) + fl (pa.e * pb.e))
    f := fl (fl (fl (pa.d * pb.c) + fl (pa.e * pb.f)) + pa.f)
    cached := false }

/-- skvm_matrix_translate of part_000 lines 1941-1961 over the rounded
product matrix_mul_fp: multiply by the local translation matrix
[1 0 tx; 0 1 ty] when (tx, ty) is not (0, 0), else leave the register
untouched. -/
def skvm_matrix_translate_fp (m : SKMAT) (tx ty : ℚ) : SKMAT :=
  if tx ≠ 0 ∨ ty ≠ 0 then
    matrix_mul_fp m (localMat 1 0 tx 0 1 ty) m
  else m

/-! ## Concrete scenario inputs -/

/-- The frame offsets 10, 100, 1000 of the documented MJPEG index
example [3, 10, 100, 1000]. -/
def c9offs : ℕ → ℕ :=
  fun n => if n = 0 then 10 else if n = 1 then 100 else 1000

/-- The sample parameters of the no-masking scenarios: whole source,
procedural mask with both boundaries 0, left and above modes, nearest
neighbour. -/
def c1Param : SampleParam :=
  { src_x := 0, src_y := 0, src_w := 0, src_h := 0
    x_boundary := 0, y_boundary := 0, sample_alg := 1
    subarea := false, procmask := true, rastermask := false
    leftmode := true, rightmode := false, abovemode := true, belowmode := false }

/-- The parameters of the procedural-mask scenario: as c1Param but
with the X boundary at 0.5. -/
def c2Param : SampleParam := { c1Param with x_boundary := 1 / 2 }

/-- A 100x1 3-channel source buffer filled with the color
(200, 100, 50). -/
def c2SrcBuf : SKBUF := ⟨100, 1, 3, some ((List.replicate 100 [200, 100, 50]).flatten)⟩

/-- A 100x1 3-channel target buffer pre-filled with the sentinel color
(10, 20, 30). -/
def c2TgtBuf : SKBUF := ⟨100, 1, 3, some ((List.replicate 100 [10, 20, 30]).flatten)⟩

/-- The pixel bytes the sample engine actually leaves in the c2
target: sentinel for x < 49, source color for x >= 49. -/
def c2Result : List ℕ :=
  (List.replicate 49 [10, 20, 30] ++ List.replicate 51 [200, 100, 50]).flatten

/-! ## Theorems -/

/-- Rounding an integer to the nearest integer is the identity. -/
theorem rne_intCast (m : ℤ) : rne ((m : ℚ)) = m := by
  simp [rne]

/-- Round-to-nearest lands within half a unit of its argument. -/
theorem rne_err (s : ℚ) : |(rne s : ℚ) - s| ≤ 1 / 2 := by
  have h1 : (⌊s⌋ : ℚ) ≤ s := Int.floor_le s
  have h2 : s < ⌊s⌋ + 1 := Int.lt_floor_add_one s
  unfold rne
  split_ifs with ha hb hc
  · rw [abs_le]; constructor <;> push_cast <;> linarith
  · rw [abs_le]; constructor <;> push_cast <;> linarith
  · rw [abs_le]; constructor <;> push_cast <;> linarith
  · rw [abs_le]; constructor <;> push_cast <;> linarith

/-- Zero is a binary64 value. -/
theorem fl_zero : fl 0 = 0 := by
  simp [fl]

/-- The standard binary64 rounding error bound: relative error
2^(-53) plus half a subnormal step. -/
theorem fl_err (x : ℚ) : |fl x - x| ≤ |x| / 2 ^ 53 + 1 / 2 ^ 1075 := by
  by_cases hx : x = 0
  · subst hx
    rw [fl_zero]
    simp
  · have hax : (0 : ℚ) < |x| := abs_pos.mpr hx
    unfold fl
    rw [if_neg hx]
    set e : ℤ := max (Int.log 2 |x|) (-1022) with he
    have hp : (0 : ℚ) < (2 : ℚ) ^ (e - 52) := by positivity
    have hkey : (rne (x / 2 ^ (e - 52)) : ℚ) * 2 ^ (e - 52) - x =
        ((rne (x / 2 ^ (e - 52)) : ℚ) - x / 2 ^ (e - 52)) * 2 ^ (e - 52) := by
      field_simp
    rw [hkey, abs_mul, abs_of_pos hp]
    have h2 : |(rne (x / 2 ^ (e - 52)) : ℚ) - x / 2 ^ (e - 52)| * 2 ^ (e - 52) ≤
        (1 / 2) * 2 ^ (e - 52) :=
      mul_le_mul_of_nonneg_right (rne_err _) (le_of_lt hp)
    refine le_trans h2 ?_
    by_cases hcase : -1022 ≤ Int.log 2 |x|
    · have hee : e = Int.log 2 |x| := max_eq_left hcase
      have hle : (2 : ℚ) ^ e ≤ |x| := by
        rw [hee]
        exact Int.zpow_log_le_self (by norm_num) hax
      have hid : (1 / 2 : ℚ) * 2 ^ (e - 52) = (2 : ℚ) ^ e / 2 ^ 53 := by
        rw [zpow_sub₀ (by norm_num : (2 : ℚ) ≠ 0)]
        rw [show ((2 : ℚ) ^ (52 : ℤ)) = (2 : ℚ) ^ (52 : ℕ) from by norm_num]
        ring
      rw [hid]
      have hmono : (2 : ℚ) ^ e / 2 ^ 53 ≤ |x| / 2 ^ 53 :=
        (div_le_div_iff_of_pos_right (by positivity)).mpr hle
      have : (0 : ℚ) ≤ 1 / 2 ^ 1075 := by positivity
      linarith
    · have hlog : Int.log 2 |x| ≤ -1022 := le_of_not_le hcase
      have hee : e = -1022 := max_eq_right hlog
      have hval : (1 / 2 : ℚ) * 2 ^ (e - 52) = 1 / 2 ^ 1075 := by
        rw [hee]
        norm_num
      rw [hval]
      have : (0 : ℚ) ≤ |x| / 2 ^ 53 := by positivity
      linarith

/-- fl_err with the magnitude replaced by any upper bound. -/
theorem fl_errB (x B : ℚ) (h : |x| ≤ B) : |fl x - x| ≤ B / 2 ^ 53 + 1 / 2 ^ 1075 := by
  refine le_trans (fl_err x) ?_
  have hmono : |x| / 2 ^ 53 ≤ B / 2 ^ 53 :=
    (div_le_div_iff_of_pos_right (by positivity)).mpr h
  linarith

/-- Rounding moves a moderately sized value by less than one. -/
theorem fl_absB (x B : ℚ) (h : |x| ≤ B) (hB : B ≤ 1000) : |fl x| ≤ B + 1 := by
  have e := fl_errB x B h
  have tri : |fl x| ≤ |fl x - x| + |x| := by
    calc |fl x| = |(fl x - x) + x| := by ring_nf
    _ ≤ |fl x - x| + |x| := abs_add _ _
  have hmono : B / 2 ^ 53 ≤ 1000 / 2 ^ 53 :=
    (div_le_div_iff_of_pos_right (by positivity)).mpr hB
  have hnum : (1000 : ℚ) / 2 ^ 53 + 1 / 2 ^ 1075 ≤ 1 := by norm_num
  linarith

/-- Normal powers of two are binary64 values. -/
theorem fl_two_pow (k : ℤ) (hk : -1022 ≤ k) : fl ((2 : ℚ) ^ k) = 2 ^ k := by
  have hpos : (0 : ℚ) < (2 : ℚ) ^ k := by positivity
  unfold fl
  have hlog : Int.log 2 ((2 : ℚ) ^ k) = k := by
    rw [show ((2 : ℚ) ^ k) = (((2 : ℕ) : ℚ)) ^ k from by norm_num]
    exact Int.log_zpow (by norm_num) k
  rw [if_neg (ne_of_gt hpos), abs_of_pos hpos, hlog, max_eq_left hk]
  have h1 : (2 : ℚ) ^ k / 2 ^ (k - 52) = ((2 ^ 52 : ℤ) : ℚ) := by
    rw [← zpow_sub₀ (by norm_num : (2 : ℚ) ≠ 0)]
    norm_num
  rw [h1, rne_intCast]
  push_cast
  rw [show (4503599627370496 : ℚ) = (2 : ℚ) ^ (52 : ℤ) from by norm_num,
    ← zpow_add₀ (by norm_num : (2 : ℚ) ≠ 0),
    show ((52 : ℤ) + (k - 52)) = k from by ring]

/-- One is a binary64 value. -/
theorem fl_one : fl 1 = 1 := by
  have h := fl_two_pow 0 (by norm_num)
  simpa using h

/-- 2^100 is a binary64 value. -/
theorem fl_pow100 : fl ((2 : ℚ) ^ (100 : ℕ)) = (2 : ℚ) ^ (100 : ℕ) := by
  have h := fl_two_pow 100 (by norm_num)
  rwa [show ((2 : ℚ) ^ (100 : ℤ)) = (2 : ℚ) ^ (100 : ℕ) from by norm_num] at h

/-- Absorption: 1 + 2^100 rounds to 2^100 exactly, because the next
binary64 value above 2^100 is 2^100 + 2^48. -/
theorem fl_absorb_pow100 : fl (1 + 2 ^ 100) = (2 : ℚ) ^ (100 : ℕ) := by
  have hx : (0 : ℚ) < 1 + 2 ^ 100 := by positivity
  have hlog : Int.log 2 |(1 + 2 ^ 100 : ℚ)| = 100 := by
    rw [abs_of_pos hx]
    rw [show ((1 : ℚ) + 2 ^ 100) = ((2 ^ 100 + 1 : ℕ) : ℚ) from by push_cast; ring]
    rw [Int.log_natCast]
    have h := Nat.log_eq_of_pow_le_of_lt_pow
      (b := 2) (m := 100) (n := 2 ^ 100 + 1) (by norm_num) (by norm_num)
    exact_mod_cast h
  have hfloor : ⌊(1 + 2 ^ 100 : ℚ) / 2 ^ ((100 : ℤ) - 52)⌋ = 2 ^ 52 := by
    rw [show ((100 : ℤ) - 52) = (48 : ℤ) from by norm_num,
      show ((2 : ℚ) ^ (48 : ℤ)) = (2 : ℚ) ^ (48 : ℕ) from by norm_num,
      Int.floor_eq_iff]
    constructor
    · rw [le_div_iff₀ (by positivity)]
      push_cast
      norm_num
    · rw [div_lt_iff₀ (by positivity)]
      push_cast
      norm_num
  unfold fl
  rw [if_neg (ne_of_gt hx), hlog, show max (100 : ℤ) (-1022) = 100 from by norm_num]
  have hlt : (1 + 2 ^ 100 : ℚ) / 2 ^ ((100 : ℤ) - 52) - ⌊(1 + 2 ^ 100 : ℚ) / 2 ^ ((100 : ℤ) - 52)⌋ < 1 / 2 := by
    rw [hfloor]
    rw [show ((100 : ℤ) - 52) = (48 : ℤ) from by norm_num,
      show ((2 : ℚ) ^ (48 : ℤ)) = (2 : ℚ) ^ (48 : ℕ) from by norm_num]
    push_cast
    rw [div_sub' _ _ _ (by positivity), div_lt_iff₀ (by positivity)]
    norm_num
  rw [rne, if_pos hlt, hfloor]
  push_cast
  norm_num

/-- Four successive roundings of a value of magnitude at most 100 stay
within 1e-12 of it: the error budget of the a, b, d, e fields of the
translate round trip. -/
theorem fl_quad_err (x : ℚ) (hx : |x| ≤ 100) :
    |fl (fl (fl (fl x))) - x| ≤ 1 / 10 ^ 12 := by
  have a1 : |fl x| ≤ 101 := by
    have := fl_absB x 100 hx (by norm_num)
    linarith
  have a2 : |fl (fl x)| ≤ 102 := by
    have := fl_absB (fl x) 101 a1 (by norm_num)
    linarith
  have a3 : |fl (fl (fl x))| ≤ 103 := by
    have := fl_absB (fl (fl x)) 102 a2 (by norm_num)
    linarith
  have e1 := abs_le.mp (fl_errB x 100 hx)
  have e2 := abs_le.mp (fl_errB (fl x) 101 a1)
  have e3 := abs_le.mp (fl_errB (fl (fl x)) 102 a2)
  have e4 := abs_le.mp (fl_errB (fl (fl (fl x))) 103 a3)
  have hnum : (100 : ℚ) / 2 ^ 53 + 1 / 2 ^ 1075 + (101 / 2 ^ 53 + 1 / 2 ^ 1075) +
      (102 / 2 ^ 53 + 1 / 2 ^ 1075) + (103 / 2 ^ 53 + 1 / 2 ^ 1075) ≤ 1 / 10 ^ 12 := by
    norm_num
  rw [abs_le]
  constructor <;> linarith

/-- The c and f fields of the translate round trip: round, add the
offset with rounding, round twice more across the second multiply,
subtract the offset with rounding.  For magnitudes at most 100 the six
roundings stay within 1e-12. -/
theorem fl_chain_err (x t : ℚ) (hx : |x| ≤ 100) (ht : |t| ≤ 100) :
    |fl (fl (fl (fl (fl (fl x) + t))) + -t) - x| ≤ 1 / 10 ^ 12 := by
  have a1 : |fl x| ≤ 101 := by
    have := fl_absB x 100 hx (by norm_num)
    linarith
  have a2 : |fl (fl x)| ≤ 102 := by
    have := fl_absB (fl x) 101 a1 (by norm_num)
    linarith
  have a3 : |fl (fl x) + t| ≤ 202 := by
    have := abs_add (fl (fl x)) t
    linarith
  have a4 : |fl (fl (fl x) + t)| ≤ 203 := by
    have := fl_absB (fl (fl x) + t) 202 a3 (by norm_num)
    linarith
  have a5 : |fl (fl (fl (fl x) + t))| ≤ 204 := by
    have := fl_absB (fl (fl (fl x) + t)) 203 a4 (by norm_num)
    linarith
  have a6 : |fl (fl (fl (fl (fl x) + t)))| ≤ 205 := by
    have := fl_absB (fl (fl (fl (fl x) + t))) 204 a5 (by norm_num)
    linarith
  have a7 : |fl (fl (fl (fl (fl x) + t))) + -t| ≤ 305 := by
    have h1 := abs_add (fl (fl (fl (fl (fl x) + t)))) (-t)
    have h2 : |(-t)| = |t| := abs_neg t
    linarith
  have e1 := abs_le.mp (fl_errB x 100 hx)
  have e2 := abs_le.mp (fl_errB (fl x) 101 a1)
  have e3 := abs_le.mp (fl_errB (fl (fl x) + t) 202 a3)
  have e4 := abs_le.mp (fl_errB (fl (fl (fl x) + t)) 203 a4)
  have e5 := abs_le.mp (fl_errB (fl (fl (fl (fl x) + t))) 204 a5)
  have e6 := abs_le.mp (fl_errB (fl (fl (fl (fl (fl x) + t))) + -t) 305 a7)
  have hnum : (100 : ℚ) / 2 ^ 53 + 101 / 2 ^ 53 + 202 / 2 ^ 53 + 203 / 2 ^ 53 +
      204 / 2 ^ 53 + 305 / 2 ^ 53 + 6 / 2 ^ 1075 ≤ 1 / 10 ^ 12 := by
    norm_num
  rw [abs_le]
  constructor <;> linarith

/-- C4 (amended): in the binary64 rounding model of the double
arithmetic, for every matrix register whose six forward elements have
magnitude at most 100 and all tx, ty of magnitude at most 100,
translate(m, tx, ty) followed by translate(m, -tx, -ty) leaves each
forward element within 1e-12 of its starting value.  The magnitude
restriction is necessary: C4_counterexample_absorption shows the
unrestricted claim fails. -/
theorem C4_translate_round_trip_binary64 (m : SKMAT) (tx ty : ℚ)
    (ha : |m.a| ≤ 100) (hb : |m.b| ≤ 100) (hc : |m.c| ≤ 100) (hd : |m.d| ≤ 100)
    (he : |m.e| ≤ 100) (hf : |m.f| ≤ 100) (htx : |tx| ≤ 100) (hty : |ty| ≤ 100) :
    |(skvm_matrix_translate_fp (skvm_matrix_translate_fp m tx ty) (-tx) (-ty)).a - m.a| ≤ 1 / 10 ^ 12 ∧
    |(skvm_matrix_translate_fp (skvm_matrix_translate_fp m tx ty) (-tx) (-ty)).b - m.b| ≤ 1 / 10 ^ 12 ∧
    |(skvm_matrix_translate_fp (skvm_matrix_translate_fp m tx ty) (-tx) (-ty)).c - m.c| ≤ 1 / 10 ^ 12 ∧
    |(skvm_matrix_translate_fp (skvm_matrix_translate_fp m tx ty) (-tx) (-ty)).d - m.d| ≤ 1 / 10 ^ 12 ∧
    |(skvm_matrix_translate_fp (skvm_matrix_translate_fp m tx ty) (-tx) (-ty)).e - m.e| ≤ 1 / 10 ^ 12 ∧
    |(skvm_matrix_translate_fp (skvm_matrix_translate_fp m tx ty) (-tx) (-ty)).f - m.f| ≤ 1 / 10 ^ 12 := by
  by_cases hz : tx ≠ 0 ∨ ty ≠ 0
  · have hz2 : -tx ≠ 0 ∨ -ty ≠ 0 := by
      rcases hz with h | h
      · exact Or.inl (neg_ne_zero.mpr h)
      · exact Or.inr (neg_ne_zero.mpr h)
    simp only [skvm_matrix_translate_fp, if_pos hz, if_pos hz2, matrix_mul_fp, localMat,
      one_mul, zero_mul, fl_zero, add_zero, zero_add]
    exact ⟨fl_quad_err _ ha, fl_quad_err _ hb, fl_chain_err _ _ hc htx,
      fl_quad_err _ hd, fl_quad_err _ he, fl_chain_err _ _ hf hty⟩
  · push_neg at hz
    simp only [skvm_matrix_translate_fp, hz.1, hz.2, neg_zero, ne_eq, not_true_eq_false,
      or_self, if_false]
    norm_num

/-- Witness for C4: the identity register translated by (3, 2) and
back, all magnitude hypotheses discharged concretely. -/
theorem C4_witness :
    |(skvm_matrix_translate_fp (skvm_matrix_translate_fp skvm_matrix_reset 3 2) (-3) (-2)).a -
      skvm_matrix_reset.a| ≤ 1 / 10 ^ 12 ∧
    |(skvm_matrix_translate_fp (skvm_matrix_translate_fp skvm_matrix_reset 3 2) (-3) (-2)).b -
      skvm_matrix_reset.b| ≤ 1 / 10 ^ 12 ∧
    |(skvm_matrix_translate_fp (skvm_matrix_translate_fp skvm_matrix_reset 3 2) (-3) (-2)).c -
      skvm_matrix_reset.c| ≤ 1 / 10 ^ 12 ∧
    |(skvm_matrix_translate_fp (skvm_matrix_translate_fp skvm_matrix_reset 3 2) (-3) (-2)).d -
      skvm_matrix_reset.d| ≤ 1 / 10 ^ 12 ∧
    |(skvm_matrix_translate_fp (skvm_matrix_translate_fp skvm_matrix_reset 3 2) (-3) (-2)).e -
      skvm_matrix_reset.e| ≤ 1 / 10 ^ 12 ∧
    |(skvm_matrix_translate_fp (skvm_matrix_translate_fp skvm_matrix_reset 3 2) (-3) (-2)).f -
      skvm_matrix_reset.f| ≤ 1 / 10 ^ 12 :=
  C4_translate_round_trip_binary64 skvm_matrix_reset 3 2
    (by norm_num [skvm_matrix_reset]) (by norm_num [skvm_matrix_reset])
    (by norm_num [skvm_matrix_reset]) (by norm_num [skvm_matrix_reset])
    (by norm_num [skvm_matrix_reset]) (by norm_num [skvm_matrix_reset])
    (by norm_num) (by norm_num)

/-- Counterexample to the unrestricted C4 claim: starting from the
identity with c = 1, translating by tx = 2^100 absorbs the 1 into the
rounded sum fl(1 + 2^100) = 2^100, and translating back yields c = 0,
an error of 1, far above 1e-12.  (2^100 stands in for the 1e30 of a
concrete C run; any offset at least 2^53 absorbs c = 1.) -/
theorem C4_counterexample_absorption :
    (skvm_matrix_translate_fp (skvm_matrix_translate_fp
        { skvm_matrix_reset with c := 1 } (2 ^ 100) 0) (-(2 ^ 100)) 0).c = 0 ∧
    ¬(|(skvm_matrix_translate_fp (skvm_matrix_translate_fp
        { skvm_matrix_reset with c := 1 } (2 ^ 100) 0) (-(2 ^ 100)) 0).c -
      ({ skvm_matrix_reset with c := 1 } : SKMAT).c| ≤ 1 / 10 ^ 12) := by
  have h100 : (0 : ℚ) < 2 ^ 100 := by positivity
  have hcond : ((2 : ℚ) ^ 100 ≠ 0 ∨ (0 : ℚ) ≠ 0) := Or.inl (ne_of_gt h100)
  have hcond2 : (-((2 : ℚ) ^ 100) ≠ 0 ∨ (0 : ℚ) ≠ 0) :=
    Or.inl (neg_ne_zero.mpr (ne_of_gt h100))
  have hmain : (skvm_matrix_translate_fp (skvm_matrix_translate_fp
      { skvm_matrix_reset with c := 1 } (2 ^ 100) 0) (-(2 ^ 100)) 0).c = 0 := by
    simp only [skvm_matrix_translate_fp, if_pos hcond, if_pos hcond2, matrix_mul_fp, localMat,
      one_mul, zero_mul, fl_zero, add_zero, zero_add, skvm_matrix_reset]
    rw [fl_one, fl_one, fl_absorb_pow100, fl_pow100, fl_pow100]
    rw [add_neg_cancel, fl_zero]
  refine ⟨hmain, ?_⟩
  rw [hmain]
  norm_num [skvm_matrix_reset]

/-- C3: the dispatch registry of sksample.c binds the operator name
"sample_bicubic" to the op_sample_bilinear function, so executing the
sample_bicubic operator selects SKVM_ALG_BILINEAR (2), exactly the
kernel that sample_bilinear selects and not the bicubic kernel (3);
the bicubic kernel itself is moreover unimplemented and aborts.  This
refutes the claim that the three algorithm selectors reach three
distinct kernels. -/
theorem C3_sample_bicubic_dispatched_to_bilinear :
    sksample_register.lookup "sample_bicubic" = some SkOpFun.fn_sample_bilinear ∧
    sksample_register.lookup "sample_bilinear" = some SkOpFun.fn_sample_bilinear ∧
    (∀ s sk, algAfter SkOpFun.fn_sample_bilinear s sk = some 2) ∧
    (∀ pb pp, sample_bicubic pb pp = none) :=
  ⟨by decide, by decide, fun s sk => rfl, fun pb pp => rfl⟩

/-- C5: with the stack already at its maximum height of 32, each push
returns success (status 1) and grows the height to 33 -- the overflow
branch at sparkle.c line 719 sets status to 1 instead of 0, so the
claimed fail-and-leave-unchanged behavior does not happen. -/
theorem C5_push_on_full_stack_succeeds :
    (stack_push_int ⟨List.replicate 32 (CELL.vint 0), 32⟩ 7).1 = true ∧
    (stack_push_int ⟨List.replicate 32 (CELL.vint 0), 32⟩ 7).2.count = 33 ∧
    (stack_push_float ⟨List.replicate 32 (CELL.vint 0), 32⟩ (1 / 2)).1 = true ∧
    (stack_push_float ⟨List.replicate 32 (CELL.vint 0), 32⟩ (1 / 2)).2.count = 33 ∧
    (stack_push_string ⟨List.replicate 32 (CELL.vint 0), 32⟩ ['a']).1 = true ∧
    (stack_push_string ⟨List.replicate 32 (CELL.vint 0), 32⟩ ['a']).2.count = 33 := by
  decide

/-- C6: with procedural masking in effect and a float 1/2 (or an
integer 1) on top of the stack, sample_mask_x and sample_mask_y return
failure and leave the boundary and the stack unchanged -- the
float-compatibility check at sksample.c lines 591 and 658 is inverted,
so the claimed accept-and-set behavior does not happen. -/
theorem C6_mask_x_rejects_float_argument :
    op_sample_mask_x sksampleInit ⟨[CELL.vfloat (1 / 2)], 1⟩ =
      some (false, sksampleInit, ⟨[CELL.vfloat (1 / 2)], 1⟩) ∧
    op_sample_mask_y sksampleInit ⟨[CELL.vint 1], 1⟩ =
      some (false, sksampleInit, ⟨[CELL.vint 1], 1⟩) := by
  refine ⟨?_, ?_⟩ <;> with_unfolding_all rfl

/-- C10: while a raster mask is selected, sample_mask_x invoked with a
string cell on top of the stack does not return failure: the inverted
float-compatibility check lets the string through to cell_get_float,
which aborts.  The four side-mode operators do fail and leave the
configuration unchanged, and sample_mask_none succeeds and restores
the default procedural mask. -/
theorem C10_mask_x_aborts_on_string_under_raster_mask :
    op_sample_mask_x { sksampleInit with mask_buf := 2 } ⟨[CELL.vstr ['a']], 1⟩ = none ∧
    op_sample_mask_left { sksampleInit with mask_buf := 2 } ⟨[], 0⟩ =
      some (false, { sksampleInit with mask_buf := 2 }, ⟨[], 0⟩) ∧
    op_sample_mask_none { sksampleInit with mask_buf := 2 } ⟨[], 0⟩ =
      some (true, sksampleInit, ⟨[], 0⟩) := by
  refine ⟨?_, ?_, ?_⟩ <;> with_unfolding_all rfl

/-- C8: the inverse-cache invariant.  Reset restores the identity
forward matrix with a cached identity inverse; matrix_mul always
clears the cache flag; translate, scale and rotate clear the cache
whenever they modify the matrix and preserve the invariant always; the
lazy inverse computation of target2source (used by the sample
operation) leaves the cache flag set with a consistent inverse
whenever the determinant is non-zero. -/
theorem C8_inverse_cache_invariant :
    (skvm_matrix_reset.cached = true ∧ invConsistent skvm_matrix_reset) ∧
    (∀ pm pa pb, (matrix_mul pm pa pb).cached = false) ∧
    (∀ m tx ty, ((tx ≠ 0 ∨ ty ≠ 0) → (skvm_matrix_translate m tx ty).cached = false) ∧
      (matInv m → matInv (skvm_matrix_translate m tx ty))) ∧
    (∀ m sx sy m2, skvm_matrix_scale m sx sy = some m2 →
      (((sx ≠ 1 ∨ sy ≠ 1) → m2.cached = false) ∧ (matInv m → matInv m2))) ∧
    (∀ m deg cosv sinv,
      (qfmod deg 360 ≠ 0 → (skvm_matrix_rotate m deg cosv sinv).cached = false) ∧
      (matInv m → matInv (skvm_matrix_rotate m deg cosv sinv))) ∧
    (∀ m p, detM m ≠ 0 → matInv m →
      ((target2source m p).1.cached = true ∧ matInv (target2source m p).1)) := by
  refine ⟨⟨rfl, by norm_num [invConsistent, skvm_matrix_reset]⟩, fun pm pa pb => rfl, ?_, ?_, ?_, ?_⟩
  · intro m tx ty
    constructor
    · intro h
      simp only [skvm_matrix_translate, if_pos h, matrix_mul]
    · intro hm
      by_cases h : tx ≠ 0 ∨ ty ≠ 0
      · simp only [skvm_matrix_translate, if_pos h, matrix_mul, matInv]
        intro hc
        exact absurd hc (by simp)
      · simpa only [skvm_matrix_translate, if_neg h] using hm
  · intro m sx sy m2 h
    simp only [skvm_matrix_scale] at h
    by_cases h0 : sx = 0 ∨ sy = 0
    · simp [h0] at h
    · rw [if_neg h0] at h
      by_cases h1 : sx ≠ 1 ∨ sy ≠ 1
      · rw [if_pos h1] at h
        injection h with h
        subst h
        exact ⟨fun _ => rfl, fun _ => by intro hc; exact absurd hc (by simp [matrix_mul])⟩
      · rw [if_neg h1] at h
        injection h with h
        subst h
        exact ⟨fun hx => absurd hx h1, fun hm => hm⟩
  · intro m deg cosv sinv
    constructor
    · intro h
      simp only [skvm_matrix_rotate, if_pos h, matrix_mul]
    · intro hm
      by_cases h : qfmod deg 360 ≠ 0
      · simp only [skvm_matrix_rotate, if_pos h, matrix_mul, matInv]
        intro hc
        exact absurd hc (by simp)
      · simpa only [skvm_matrix_rotate, if_neg h] using hm
  · intro m p hdet hm
    by_cases hc : m.cached
    · constructor
      · simp only [target2source, if_pos hc]
        exact hc
      · simp only [target2source, if_pos hc]
        exact hm
    · have hd : m.a * m.e - m.b * m.d ≠ 0 := hdet
      constructor
      · simp only [target2source, if_neg hc]
      · simp only [target2source, if_neg hc, matInv, invConsistent]
        intro _
        refine ⟨?_, ?_, ?_, ?_, ?_, ?_⟩ <;> (field_simp; ring)

/-- Witness for C8: the lazy inverse computed on an uncached scaling
matrix is cached and consistent. -/
theorem C8_witness :
    (target2source ⟨2, 0, 0, 0, 2, 0, 0, 0, 0, 0, 0, 0, false⟩ (3, 4)).1.cached = true ∧
    matInv (target2source ⟨2, 0, 0, 0, 2, 0, 0, 0, 0, 0, 0, 0, false⟩ (3, 4)).1 :=
  C8_inverse_cache_invariant.2.2.2.2.2 ⟨2, 0, 0, 0, 2, 0, 0, 0, 0, 0, 0, 0, false⟩ (3, 4)
    (by norm_num [detM]) (fun h => by simp at h)

/-- Helper: the shared JPEG decode stage unloads the buffer whenever
it returns failure. -/
theorem jpeg_decode_fail_unloads (buf : SKBUF) (reader : Option JpegR) (st : Bool) (b2 : SKBUF)
    (h : jpeg_decode buf reader = some (st, b2)) (hst : st = false) : b2.data = none := by
  subst hst
  cases reader with
  | none =>
    simp only [jpeg_decode, Option.some.injEq, Prod.mk.injEq] at h
    rw [← h.2]
  | some r =>
    simp only [jpeg_decode] at h
    split at h
    · simp only [Option.some.injEq, Prod.mk.injEq] at h
      rw [← h.2]
    · split at h
      · simp only [Option.some.injEq, Prod.mk.injEq] at h
        rw [← h.2]
      · split at h
        · exact absurd h (by simp)
        · simp only [Option.some.injEq, Prod.mk.injEq] at h
          rw [← h.2]
        · simp only [Option.some.injEq, Prod.mk.injEq] at h
          exact absurd h.1 (by simp)

/-- C7: whenever skvm_load_png, skvm_load_jpeg or skvm_load_mjpg
returns failure (for any environment: unopenable file, decode error,
dimension mismatch, invalid index path or frame), the addressed buffer
register is left unloaded with its pixel storage released. -/
theorem C7_failed_load_leaves_buffer_unloaded :
    (∀ buf reader st b2, skvm_load_png buf reader = some (st, b2) → st = false →
      b2.data = none) ∧
    (∀ buf reader st b2, skvm_load_jpeg buf reader = some (st, b2) → st = false →
      b2.data = none) ∧
    (∀ buf path f ifile jopen st b2,
      skvm_load_mjpg buf path f ifile jopen = some (st, b2) → st = false →
      b2.data = none) := by
  refine ⟨?_, ?_, ?_⟩
  · intro buf reader st b2 h hst
    subst hst
    cases reader with
    | none =>
      simp only [skvm_load_png, Option.some.injEq, Prod.mk.injEq] at h
      rw [← h.2]
    | some r =>
      simp only [skvm_load_png] at h
      split at h
      · simp only [Option.some.injEq, Prod.mk.injEq] at h
        rw [← h.2]
      · split at h
        · exact absurd h (by simp)
        · simp only [Option.some.injEq, Prod.mk.injEq] at h
          rw [← h.2]
        · simp only [Option.some.injEq, Prod.mk.injEq] at h
          exact absurd h.1 (by simp)
  · intro buf reader st b2 h hst
    exact jpeg_decode_fail_unloads buf reader st b2 h hst
  · intro buf path f ifile jopen st b2 h hst
    simp only [skvm_load_mjpg] at h
    split at h
    · subst hst
      simp only [Option.some.injEq, Prod.mk.injEq] at h
      rw [← h.2]
    · exact jpeg_decode_fail_unloads buf _ st b2 h hst

/-- Witness for C7: a PNG load whose file fails to open leaves the
previously loaded 1x1 buffer unloaded. -/
theorem C7_witness : (SKBUF.mk 1 1 1 none).data = none :=
  C7_failed_load_leaves_buffer_unloaded.1 ⟨1, 1, 1, some [5]⟩ none false ⟨1, 1, 1, none⟩
    (by rfl) (by rfl)

/-- Helper: reading eight bytes big-endian from a file that holds the
big-endian layout of a value below 2^64 recovers the value. -/
theorem read_be8_layout (file : ℕ → Option ℕ) (pos : ℕ) (v : ℕ) (hv : v < 2 ^ 64)
    (h : ∀ j, j < 8 → file (pos + j) = some (beByte v j)) :
    read_be8 file pos = some v := by
  have e : List.range 8 = [0, 1, 2, 3, 4, 5, 6, 7] := by decide
  simp only [read_be8, e, List.foldlM, bind, Option.bind,
    h 0 (by norm_num), h 1 (by norm_num), h 2 (by norm_num), h 3 (by norm_num),
    h 4 (by norm_num), h 5 (by norm_num), h 6 (by norm_num), h 7 (by norm_num),
    beByte, Option.some.injEq]
  norm_num
  omega

/-- Helper: the first big-endian integer of the documented index
layout is the frame count. -/
theorem mjpgIndexFile_read_count (kk : ℕ) (offs : ℕ → ℕ) (hk : kk < 2 ^ 64) :
    read_be8 (mjpgIndexFile kk offs) 0 = some kk := by
  apply read_be8_layout _ _ _ hk
  intro j hj
  simp only [mjpgIndexFile, Nat.zero_add]
  rw [Nat.div_eq_of_lt hj, if_pos rfl, Nat.mod_eq_of_lt hj]

/-- Helper: the (n+2)-th big-endian integer of the documented index
layout is the offset of frame n. -/
theorem mjpgIndexFile_read_offset (kk : ℕ) (offs : ℕ → ℕ) (n : ℕ)
    (hn : n < kk) (hv : offs n < 2 ^ 64) :
    read_be8 (mjpgIndexFile kk offs) ((n + 1) * 8) = some (offs n) := by
  apply read_be8_layout _ _ _ hv
  intro j hj
  simp only [mjpgIndexFile]
  have hdiv : ((n + 1) * 8 + j) / 8 = n + 1 := by omega
  have hmod : ((n + 1) * 8 + j) % 8 = j := by omega
  rw [hdiv, hmod, if_neg (by omega), if_pos (by omega)]
  simp

/-- C9 (amended): skvm_load_mjpg interprets the index file as
big-endian 64-bit integers, the first being the frame count K and the
following K being frame byte offsets.  For 0 <= f < K with
(f+1)*8 within the signed 32-bit range (f+1 <= 268435455) it opens the
companion file obtained by stripping the final dot-suffix from the
index path and seeks to the value of the (f+1)-th offset integer; for
f < 0 or f >= K it fails with "Invalid frame index" without decoding;
for 0 <= f < K beyond the guard it fails with "Frame index overflow";
an index path with no usable dot, or whose last dot is followed by a
later path separator, fails with "Invalid index file path". -/
theorem C9_mjpg_index_semantics (path : List Char) (kk : ℕ) (offs : ℕ → ℕ) (f : ℤ)
    (hdot : 0 < (findLastDotSep path).1)
    (hsep : (findLastDotSep path).2 ≤ (findLastDotSep path).1)
    (hk : kk < 2 ^ 64) (hoffs : ∀ n, offs n < 2 ^ 64) :
    (0 ≤ f → f < (kk : ℤ) → f + 1 ≤ 268435455 →
      mjpg_locate path f (some (mjpgIndexFile kk offs)) =
        .ok (path.take (findLastDotSep path).1.toNat, offs f.toNat)) ∧
    (f < 0 ∨ (kk : ℤ) ≤ f →
      mjpg_locate path f (some (mjpgIndexFile kk offs)) = .error "Invalid frame index") ∧
    (0 ≤ f → f < (kk : ℤ) → 268435455 < f + 1 →
      mjpg_locate path f (some (mjpgIndexFile kk offs)) = .error "Frame index overflow") ∧
    (∀ path2 g file, (findLastDotSep path2).1 ≤ 0 →
      mjpg_locate path2 g file = .error "Invalid index file path") ∧
    (∀ path2 g file, 0 ≤ (findLastDotSep path2).2 →
      (findLastDotSep path2).1 < (findLastDotSep path2).2 →
      mjpg_locate path2 g file = .error "Invalid index file path") := by
  have hld : ¬((findLastDotSep path).1 ≤ 0) := not_le.mpr hdot
  have hls : ¬(0 ≤ (findLastDotSep path).2 ∧
      (findLastDotSep path).1 < (findLastDotSep path).2) := by
    rintro ⟨h1, h2⟩
    omega
  have hdiv8 : INT32_MAX / 8 = 268435455 := by norm_num [INT32_MAX]
  refine ⟨?_, ?_, ?_, ?_, ?_⟩
  · intro h0 h1 h2
    have hoff := mjpgIndexFile_read_offset kk offs f.toNat (by omega) (hoffs _)
    have hcast : ((f + 1) * 8).toNat = (f.toNat + 1) * 8 := by omega
    simp only [mjpg_locate, if_neg hld, if_neg hls,
      mjpgIndexFile_read_count kk offs hk]
    rw [if_neg (by omega), if_neg (by simp only [INT32_MAX]; omega),
      if_neg (by rw [hdiv8]; omega), hcast, hoff]
  · intro h1
    simp only [mjpg_locate, if_neg hld, if_neg hls,
      mjpgIndexFile_read_count kk offs hk]
    rw [if_pos (by omega)]
  · intro h0 h1 h2
    simp only [mjpg_locate, if_neg hld, if_neg hls,
      mjpgIndexFile_read_count kk offs hk]
    rw [if_neg (by omega)]
    by_cases hIM : f < INT32_MAX
    · rw [if_neg (by omega), if_pos (by rw [hdiv8]; omega)]
    · rw [if_pos hIM]
  · intro path2 g file h
    simp only [mjpg_locate, if_pos h]
  · intro path2 g file h1 h2
    by_cases h0 : (findLastDotSep path2).1 ≤ 0
    · simp only [mjpg_locate, if_pos h0]
    · simp only [mjpg_locate, if_neg h0, if_pos (And.intro h1 h2)]

/-- Counterexample for C9: with an index file in the documented layout
whose frame count K is 2^28 and a valid frame number
f = 268435455 < K, the load fails with "Frame index overflow" instead
of seeking to the frame offset, because the C multiplies the
incremented 32-bit frame index by 8 only after checking it against
INT32_MAX / 8. -/
theorem C9_counterexample_overflow :
    mjpg_locate "m.mjpg.ix".toList 268435455
        (some (mjpgIndexFile 268435456 (fun n => 10 + n))) =
      .error "Frame index overflow" := by
  with_unfolding_all rfl

/-- Witness for C9: the documented example index [3, 10, 100, 1000]:
loading frame 1 of "m.mjpg.ix" opens "m.mjpg" and seeks to offset 100;
frame 3 fails with "Invalid frame index". -/
theorem C9_witness :
    mjpg_locate "m.mjpg.ix".toList 1 (some (mjpgIndexFile 3 c9offs)) =
      .ok ("m.mjpg".toList, 100) ∧
    mjpg_locate "m.mjpg.ix".toList 3 (some (mjpgIndexFile 3 c9offs)) =
      .error "Invalid frame index" := by
  have hoffs : ∀ n, c9offs n < 2 ^ 64 := by
    intro n
    unfold c9offs
    split_ifs <;> norm_num
  constructor
  · have h := (C9_mjpg_index_semantics "m.mjpg.ix".toList 3 c9offs 1
      (by decide) (by decide) (by norm_num) hoffs).1
      (by norm_num) (by norm_num) (by norm_num)
    rw [h]
    with_unfolding_all rfl
  · exact (C9_mjpg_index_semantics "m.mjpg.ix".toList 3 c9offs 3
      (by decide) (by decide) (by norm_num) hoffs).2.1 (by norm_num)

set_option maxRecDepth 200000 in
/-- C1: the end-to-end scenario.  Filling a 2x2 4-channel source with
non-premultiplied half-transparent red (128, 255, 0, 0) and a 2x2
4-channel target with transparent black, then sampling with the
identity matrix, whole source, no masking and nearest neighbour,
stores transparent black (0, 0, 0, 0) in every target pixel -- not the
claimed (128, 255, 0, 0) -- because the 4-channel write-back floors
the 0-to-1 scale composited alpha (about 0.502) to 0 before the
zero-alpha test instead of flooring alpha * 255. -/
theorem C1_half_transparent_sample_stores_transparent_black :
    skvm_load_fill ⟨2, 2, 4, none⟩ 128 255 0 0 =
      some ⟨2, 2, 4, some [128, 255, 0, 0, 128, 255, 0, 0,
                           128, 255, 0, 0, 128, 255, 0, 0]⟩ ∧
    skvm_load_fill ⟨2, 2, 4, none⟩ 0 0 0 0 =
      some ⟨2, 2, 4, some (List.replicate 16 0)⟩ ∧
    skvm_sample c1Param
        ⟨2, 2, 4, some [128, 255, 0, 0, 128, 255, 0, 0,
                        128, 255, 0, 0, 128, 255, 0, 0]⟩
        ⟨2, 2, 4, some (List.replicate 16 0)⟩ none skvm_matrix_reset =
      some (⟨2, 2, 4, some (List.replicate 16 0)⟩, skvm_matrix_reset) := by
  refine ⟨?_, ?_, ?_⟩ <;> with_unfolding_all rfl

set_option maxRecDepth 1000000 in
/-- Counterexample for C2: in the x_boundary = 0.5, left-mode,
width-100 scenario the target pixel at x = 49 -- which the claim says
must still hold the sentinel color since 49 < 50 -- holds the source
color after the sample call. -/
theorem C2_counterexample_pixel_49 :
    ((skvm_sample c2Param c2SrcBuf c2TgtBuf none skvm_matrix_reset).map
      (fun r => (((r.1.data.getD []).drop (49 * 3)).take 3))) = some [200, 100, 50] ∧
    ([200, 100, 50] : List ℕ) ≠ [10, 20, 30] := by
  constructor
  · with_unfolding_all rfl
  · decide

set_option maxRecDepth 1000000 in
/-- C2 (amended): with procedural masking in left mode,
x_boundary = 0.5, a filled 100x1 source, a sentinel-pre-filled 100x1
target and the identity transform, sample leaves every target pixel
with x < 49 at the sentinel color and stores the source color at every
pixel with x >= 49: the integer pivot for a boundary strictly between
0 and 1 is floor(x_boundary * (w_target - 1)) = floor(0.5 * 99) = 49,
and left mode keeps pixels at x >= pivot. -/
theorem C2_left_mask_pivot_49 :
    skvm_load_fill ⟨100, 1, 3, none⟩ 255 200 100 50 = some c2SrcBuf ∧
    skvm_load_fill ⟨100, 1, 3, none⟩ 255 10 20 30 = some c2TgtBuf ∧
    skvm_sample c2Param c2SrcBuf c2TgtBuf none skvm_matrix_reset =
      some (⟨100, 1, 3, some c2Result⟩, skvm_matrix_reset) := by
  refine ⟨?_, ?_, ?_⟩ <;> with_unfolding_all rfl
